import Mathlib

/-!
Shallow embedding of the sway repository's argument encoder
(`forc-plugins/forc-client/src/op/run/encode.rs`) and literal model
(`sway-core/src/language/literal.rs`), with theorems checking the
natural-language specification against the code.
-/

namespace Sway

/-- Alias for the string type, usable inside namespaces (such as `Ty`) that
declare a constructor named `String`. -/
abbrev Str := String

/-- Subset of Rust's `std::num::IntErrorKind` used by the sources. -/
inductive IntErrorKind
  | Empty
  | InvalidDigit
  | PosOverflow
  | NegOverflow
  | Zero
deriving DecidableEq

/-- Display text of Rust's `ParseIntError` for each kind. -/
def IntErrorKind.msg : IntErrorKind → String
  | IntErrorKind.Empty => "cannot parse integer from empty string"
  | IntErrorKind.InvalidDigit => "invalid digit found in string"
  | IntErrorKind.PosOverflow => "number too large to fit in target type"
  | IntErrorKind.NegOverflow => "number too small to fit in target type"
  | IntErrorKind.Zero => "number would be zero for non-zero type"

/-- Digit-accumulation loop of Rust's `from_str_radix` (radix 10, unsigned):
each char must be a decimal digit, and the running value is checked against
`maxVal` (the width's maximum) at every step, as Rust's checked mul/add do. -/
def parseDigitsLoop (maxVal : Nat) : List Char → Nat → Except IntErrorKind Nat
  | [], result => Except.ok result
  | c :: cs, result =>
      if c.isDigit then
        let result2 := result * 10 + (c.toNat - 48)
        if result2 ≤ maxVal then parseDigitsLoop maxVal cs result2
        else Except.error IntErrorKind.PosOverflow
      else Except.error IntErrorKind.InvalidDigit

/-- Rust's `str::parse::<uN>` (via `from_str_radix` with radix 10) for an
unsigned type with maximum value `maxVal`: empty input fails with `Empty`;
a lone `+` fails with `InvalidDigit`; a leading `+` is stripped; for
unsigned types a `-` is not a sign and simply fails as a non-digit. -/
def rustParseUInt (maxVal : Nat) (s : String) : Except IntErrorKind Nat :=
  match s.data with
  | [] => Except.error IntErrorKind.Empty
  | c :: cs =>
      if c = '+' then
        if cs = [] then Except.error IntErrorKind.InvalidDigit
        else parseDigitsLoop maxVal cs 0
      else parseDigitsLoop maxVal (c :: cs) 0

/-- Rust's `str::parse::<bool>`: exactly "true" or "false", case sensitive. -/
def rustParseBool (s : String) : Except String Bool :=
  if s = "true" then Except.ok true
  else if s = "false" then Except.ok false
  else Except.error "provided string was not `true` or `false`"

/-- The `Type` enum of `encode.rs` (named `Ty` here since `Type` is reserved
in Lean). Variants and order as in the source. -/
inductive Ty
  | Unit
  | U8
  | U16
  | U32
  | U64
  | Bool
  | Byte
  | B256
  | Array
  | Vector
  | String
  | Struct
  | Enum
  | Tuple
  | RawSlice
deriving DecidableEq

/-- Rust `Debug` rendering of `Type` (the `r#String` variant prints as
"String"); used in the "{arg_type:?} is not supported." message. -/
def Ty.debugStr : Ty → Str
  | Ty.Unit => "Unit"
  | Ty.U8 => "U8"
  | Ty.U16 => "U16"
  | Ty.U32 => "U32"
  | Ty.U64 => "U64"
  | Ty.Bool => "Bool"
  | Ty.Byte => "Byte"
  | Ty.B256 => "B256"
  | Ty.Array => "Array"
  | Ty.Vector => "Vector"
  | Ty.String => "String"
  | Ty.Struct => "Struct"
  | Ty.Enum => "Enum"
  | Ty.Tuple => "Tuple"
  | Ty.RawSlice => "RawSlice"

/-- The `fuels_core::types::Token` values producible by `encode.rs` (the
local `Token` newtype wraps this directly). Integer payloads are the
parsed machine integers, kept as `Nat` (the parser bounds them). -/
inductive Token
  | Unit
  | U8 (x : Nat)
  | U16 (x : Nat)
  | U32 (x : Nat)
  | U64 (x : Nat)
  | Bool (b : Bool)
deriving DecidableEq

/-- Embedding of `Token::from_type_and_value` from `encode.rs`: parse the
text `value` according to `arg_type`; unsupported types fail with
"{arg_type:?} is not supported.". -/
def Token.from_type_and_value (arg_type : Ty) (value : String) : Except String Token :=
  match arg_type with
  | Ty.Unit => Except.ok Token.Unit
  | Ty.U8 =>
      match rustParseUInt 255 value with
      | Except.ok u8_val => Except.ok (Token.U8 u8_val)
      | Except.error e => Except.error e.msg
  | Ty.U16 =>
      match rustParseUInt 65535 value with
      | Except.ok u16_val => Except.ok (Token.U16 u16_val)
      | Except.error e => Except.error e.msg
  | Ty.U32 =>
      match rustParseUInt 4294967295 value with
      | Except.ok u32_val => Except.ok (Token.U32 u32_val)
      | Except.error e => Except.error e.msg
  | Ty.U64 =>
      match rustParseUInt 18446744073709551615 value with
      | Except.ok u64_val => Except.ok (Token.U64 u64_val)
      | Except.error e => Except.error e.msg
  | Ty.Bool =>
      match rustParseBool value with
      | Except.ok bool_val => Except.ok (Token.Bool bool_val)
      | Except.error e => Except.error e
  | other => Except.error (other.debugStr ++ " is not supported.")

/-- Embedding of `impl FromStr for Type` from `encode.rs`. -/
def Ty.from_str (s : Str) : Except Str Ty :=
  if s = "()" then Except.ok Ty.Unit
  else if s = "u8" then Except.ok Ty.U8
  else if s = "u16" then Except.ok Ty.U16
  else if s = "u32" then Except.ok Ty.U32
  else if s = "u64" then Except.ok Ty.U64
  else if s = "bool" then Except.ok Ty.Bool
  else Except.error (s ++ " type is not supported.")

/-- Modelled from the spec: the encoded call-data layout produced by the
external `fuels_core` `ABIEncoder` — "each encoded scalar token occupies
exactly 8 bytes, big-endian, value right-justified (high-order bytes
zero-filled)". `beBytes8 n` is the 8-byte big-endian rendering of `n`. -/
def beBytes8 (n : Nat) : List Nat :=
  [n / 2 ^ 56 % 256, n / 2 ^ 48 % 256, n / 2 ^ 40 % 256, n / 2 ^ 32 % 256,
   n / 2 ^ 24 % 256, n / 2 ^ 16 % 256, n / 2 ^ 8 % 256, n % 256]

/-- Modelled from the spec: per-token encoding — scalars take one 8-byte
big-endian word, `bool` encodes as 0 or 1, and "`Unit` contributes zero
bytes". -/
def encodeToken : Token → List Nat
  | Token.Unit => []
  | Token.U8 x => beBytes8 x
  | Token.U16 x => beBytes8 x
  | Token.U32 x => beBytes8 x
  | Token.U64 x => beBytes8 x
  | Token.Bool b => beBytes8 (if b then 1 else 0)

/-- Modelled from the spec: `fuels_core` `UnresolvedBytes`, a deferred
buffer; "for all currently supported (scalar) types resolution is a
no-op", so the scalar-only buffer carries no unresolved references. -/
structure UnresolvedBytes where
  data : List Nat
deriving DecidableEq

/-- Modelled from the spec: resolving a deferred buffer at a base offset;
identity for the scalar-only subset in scope. -/
def UnresolvedBytes.resolve (u : UnresolvedBytes) (_offset : Nat) : List Nat :=
  u.data

/-- Modelled from the spec: `ABIEncoder::encode` — "Tokens are concatenated
in declared parameter order with no padding between words". -/
def ABIEncoder.encode (tokens : List Token) : UnresolvedBytes :=
  UnresolvedBytes.mk (tokens.map encodeToken).flatten

/-- The `ScriptCallHandler` struct of `encode.rs`. -/
structure ScriptCallHandler where
  main_arg_types : List Ty
deriving DecidableEq

/-- Embedding of `ScriptCallHandler::encode_arguments`: check the argument
count first, then zip types with values, parse each pair fail-fast, and
encode the token list. -/
def ScriptCallHandler.encode_arguments (handler : ScriptCallHandler)
    (values : List String) : Except String UnresolvedBytes :=
  let expected_arg_count := handler.main_arg_types.length
  let provided_arg_count := values.length
  if expected_arg_count ≠ provided_arg_count then
    Except.error ("main function takes " ++ toString expected_arg_count ++
      " arguments, " ++ toString provided_arg_count ++ " provided")
  else do
    let tokens ← (handler.main_arg_types.zip values).mapM
      (fun p => Token.from_type_and_value p.1 p.2)
    Except.ok (ABIEncoder.encode tokens)

/-- The `MAIN_KEYWORD` constant of `encode.rs`. -/
def MAIN_KEYWORD : String := "main"

/-- A function entry of the parsed ABI document (`FullABIFunction` of the
external `fuel_abi_types` crate), reduced to the fields `encode.rs` reads:
the function name and the declared type name of each input. -/
structure FullABIFunction where
  name : String
  inputs : List String
deriving DecidableEq

/-- The parsed ABI document (`FullProgramABI`), reduced to the field
`encode.rs` reads. -/
structure FullProgramABI where
  functions : List FullABIFunction
deriving DecidableEq

/-- Embedding of `ScriptCallHandler::from_json_abi_str` after the external
JSON parse: find the function named `main` and resolve its input types.
The source's `.expect("every valid script needs to have a main function")`
panic on a missing `main` is modeled as the error outcome carrying the
panic message. -/
def ScriptCallHandler.from_full_abi (full_abi : FullProgramABI) :
    Except String ScriptCallHandler :=
  match full_abi.functions.find? (fun f => f.name == MAIN_KEYWORD) with
  | none => Except.error "every valid script needs to have a main function"
  | some main_function => do
      let main_arg_types ← main_function.inputs.mapM Ty.from_str
      Except.ok (ScriptCallHandler.mk main_arg_types)

/-- C1: for every handler with N stored parameter types and every list of M
provided values with M ≠ N, `encode_arguments` fails with exactly the
message "main function takes N arguments, M provided"; the check precedes
per-argument parsing, so the failure is independent of the values. -/
theorem C1_arity_check_precedes_parsing (handler : ScriptCallHandler)
    (values : List String) (h : values.length ≠ handler.main_arg_types.length) :
    handler.encode_arguments values =
      Except.error ("main function takes " ++ toString handler.main_arg_types.length ++
        " arguments, " ++ toString values.length ++ " provided") := by
  unfold ScriptCallHandler.encode_arguments
  simp [Ne.symm h]

/-- C1 witness: a handler with one declared parameter rejects an empty value
list with the exact count-mismatch message. -/
theorem C1_arity_check_precedes_parsing_witness :
    ScriptCallHandler.encode_arguments (ScriptCallHandler.mk [Ty.U8]) [] =
      Except.error "main function takes 1 arguments, 0 provided" := by
  rw [C1_arity_check_precedes_parsing (ScriptCallHandler.mk [Ty.U8]) [] (by decide)]
  rfl

/-- C5: for every ABI type outside the supported scalar set and every value
text, `Token::from_type_and_value` fails with "<Type> is not supported."
naming the offending type. -/
theorem C5_unsupported_type_rejection (s : String) :
    Token.from_type_and_value Ty.Byte s = Except.error "Byte is not supported." ∧
    Token.from_type_and_value Ty.B256 s = Except.error "B256 is not supported." ∧
    Token.from_type_and_value Ty.Array s = Except.error "Array is not supported." ∧
    Token.from_type_and_value Ty.Vector s = Except.error "Vector is not supported." ∧
    Token.from_type_and_value Ty.String s = Except.error "String is not supported." ∧
    Token.from_type_and_value Ty.Struct s = Except.error "Struct is not supported." ∧
    Token.from_type_and_value Ty.Enum s = Except.error "Enum is not supported." ∧
    Token.from_type_and_value Ty.Tuple s = Except.error "Tuple is not supported." ∧
    Token.from_type_and_value Ty.RawSlice s = Except.error "RawSlice is not supported." := by
  exact ⟨rfl, rfl, rfl, rfl, rfl, rfl, rfl, rfl, rfl⟩

/-- C6: parsing an ABI type name is an exact match against the canonical
table, and every other input fails with "<name> type is not supported." -/
theorem C6_type_name_parsing :
    Ty.from_str "()" = Except.ok Ty.Unit ∧
    Ty.from_str "u8" = Except.ok Ty.U8 ∧
    Ty.from_str "u16" = Except.ok Ty.U16 ∧
    Ty.from_str "u32" = Except.ok Ty.U32 ∧
    Ty.from_str "u64" = Except.ok Ty.U64 ∧
    Ty.from_str "bool" = Except.ok Ty.Bool ∧
    ∀ s : String, s ≠ "()" → s ≠ "u8" → s ≠ "u16" → s ≠ "u32" → s ≠ "u64" →
      s ≠ "bool" → Ty.from_str s = Except.error (s ++ " type is not supported.") := by
  refine ⟨rfl, rfl, rfl, rfl, rfl, rfl, ?_⟩
  intro s h1 h2 h3 h4 h5 h6
  unfold Ty.from_str
  simp [h1, h2, h3, h4, h5, h6]

/-- C6 witness: the unrecognized name "u2" fails with the exact message. -/
theorem C6_type_name_parsing_witness :
    Ty.from_str "u2" = Except.error "u2 type is not supported." := by
  rw [C6_type_name_parsing.2.2.2.2.2.2 "u2" (by decide) (by decide) (by decide)
    (by decide) (by decide) (by decide)]
  rfl

/-- Spec-side decimal value of a digit string (most significant first). -/
def decimalValue (ds : List Char) : Nat :=
  ds.foldl (fun a c => a * 10 + (c.toNat - 48)) 0

/-- Spec-side predicate following the spec's words: the text is an optional
leading plus sign followed by a nonempty run of decimal digits whose value
fits below the width's maximum. -/
def isValidUIntText (maxVal : Nat) (s : String) : Prop :=
  ∃ ds : List Char, (s.data = ds ∨ s.data = '+' :: ds) ∧ ds ≠ [] ∧
    (∀ c ∈ ds, c.isDigit) ∧ decimalValue ds ≤ maxVal

theorem foldl_digits_ge (ds : List Char) : ∀ acc : Nat,
    acc ≤ ds.foldl (fun a c => a * 10 + (c.toNat - 48)) acc := by
  induction ds with
  | nil => intro acc; simp
  | cons c cs ih =>
      intro acc
      simp only [List.foldl_cons]
      exact le_trans (by omega) (ih (acc * 10 + (c.toNat - 48)))

theorem parseDigitsLoop_ok (maxVal : Nat) (ds : List Char) : ∀ acc : Nat,
    (∀ c ∈ ds, c.isDigit) →
    ds.foldl (fun a c => a * 10 + (c.toNat - 48)) acc ≤ maxVal →
    parseDigitsLoop maxVal ds acc =
      Except.ok (ds.foldl (fun a c => a * 10 + (c.toNat - 48)) acc) := by
  induction ds with
  | nil => intro acc _ _; rfl
  | cons c cs ih =>
      intro acc hdig hle
      have hc : c.isDigit := hdig c (List.mem_cons_self c cs)
      simp only [List.foldl_cons] at hle
      have hle2 : acc * 10 + (c.toNat - 48) ≤ maxVal :=
        le_trans (foldl_digits_ge cs _) hle
      simp only [parseDigitsLoop, hc, if_true, hle2, List.foldl_cons]
      exact ih _ (fun x hx => hdig x (List.mem_cons_of_mem c hx)) hle

theorem parseDigitsLoop_isOk_iff (maxVal : Nat) (ds : List Char) : ∀ acc : Nat,
    acc ≤ maxVal →
    ((∃ v, parseDigitsLoop maxVal ds acc = Except.ok v) ↔
      ((∀ c ∈ ds, c.isDigit) ∧
        ds.foldl (fun a c => a * 10 + (c.toNat - 48)) acc ≤ maxVal)) := by
  induction ds with
  | nil =>
      intro acc hacc
      simp [parseDigitsLoop, hacc]
  | cons c cs ih =>
      intro acc _
      by_cases hc : c.isDigit
      · by_cases hle : acc * 10 + (c.toNat - 48) ≤ maxVal
        · simp only [parseDigitsLoop, hc, if_true, hle, List.foldl_cons]
          rw [ih _ hle]
          constructor
          · rintro ⟨h1, h2⟩
            exact ⟨fun x hx => (List.mem_cons.mp hx).elim (fun e => e ▸ hc) (h1 x), h2⟩
          · rintro ⟨h1, h2⟩
            exact ⟨fun x hx => h1 x (List.mem_cons_of_mem c hx), h2⟩
        · simp only [parseDigitsLoop, hc, if_true, if_neg hle, List.foldl_cons]
          constructor
          · rintro ⟨v, hv⟩
            exact absurd hv (by simp)
          · rintro ⟨_, h2⟩
            exact absurd (le_trans (foldl_digits_ge cs _) h2) hle
      · simp only [parseDigitsLoop, if_neg hc]
        constructor
        · rintro ⟨v, hv⟩
          exact absurd hv (by simp)
        · rintro ⟨h1, _⟩
          exact absurd (h1 c (List.mem_cons_self c cs)) hc

theorem rustParseUInt_nil (maxVal : Nat) (s : String) (h : s.data = []) :
    rustParseUInt maxVal s = Except.error IntErrorKind.Empty := by
  unfold rustParseUInt
  rw [h]

theorem rustParseUInt_plus_nil (maxVal : Nat) (s : String)
    (h : s.data = ['+']) :
    rustParseUInt maxVal s = Except.error IntErrorKind.InvalidDigit := by
  unfold rustParseUInt
  rw [h]
  simp

theorem rustParseUInt_plus_cons (maxVal : Nat) (s : String) (c : Char)
    (cs : List Char) (h : s.data = '+' :: c :: cs) :
    rustParseUInt maxVal s = parseDigitsLoop maxVal (c :: cs) 0 := by
  unfold rustParseUInt
  rw [h]
  simp

theorem rustParseUInt_cons (maxVal : Nat) (s : String) (c : Char)
    (cs : List Char) (h : s.data = c :: cs) (hc : ¬(c = '+')) :
    rustParseUInt maxVal s = parseDigitsLoop maxVal (c :: cs) 0 := by
  unfold rustParseUInt
  rw [h]
  simp [hc]

theorem rustParseUInt_isOk_iff (maxVal : Nat) (s : String) :
    (∃ v, rustParseUInt maxVal s = Except.ok v) ↔ isValidUIntText maxVal s := by
  unfold isValidUIntText
  cases hd : s.data with
  | nil =>
      rw [rustParseUInt_nil maxVal s hd]
      constructor
      · rintro ⟨v, hv⟩
        exact absurd hv (by simp)
      · rintro ⟨ds, hds, hne, _⟩
        rcases hds with h | h
        · exact (hne h.symm).elim
        · exact List.noConfusion h
  | cons c cs =>
      by_cases hc : c = '+'
      · subst hc
        cases cs with
        | nil =>
            rw [rustParseUInt_plus_nil maxVal s hd]
            constructor
            · rintro ⟨v, hv⟩
              exact absurd hv (by simp)
            · rintro ⟨ds, hds, hne, hdig, _⟩
              rcases hds with h | h
              · have hmem : '+' ∈ ds := h ▸ List.mem_cons_self _ _
                have := hdig _ hmem
                simp [Char.isDigit] at this
              · exact (hne ((List.cons.injEq ..).mp h).2.symm).elim
        | cons c2 cs2 =>
            rw [rustParseUInt_plus_cons maxVal s c2 cs2 hd,
              parseDigitsLoop_isOk_iff maxVal (c2 :: cs2) 0 (Nat.zero_le _)]
            constructor
            · rintro ⟨h1, h2⟩
              exact ⟨c2 :: cs2, Or.inr rfl, by simp, h1, h2⟩
            · rintro ⟨ds, hds, hne, hdig, hval⟩
              rcases hds with h | h
              · have hmem : '+' ∈ ds := h ▸ List.mem_cons_self _ _
                have := hdig _ hmem
                simp [Char.isDigit] at this
              · have hds2 : ds = c2 :: cs2 := ((List.cons.injEq ..).mp h).2.symm
                subst hds2
                exact ⟨hdig, hval⟩
      · rw [rustParseUInt_cons maxVal s c cs hd hc,
          parseDigitsLoop_isOk_iff maxVal (c :: cs) 0 (Nat.zero_le _)]
        constructor
        · rintro ⟨h1, h2⟩
          exact ⟨c :: cs, Or.inl rfl, by simp, h1, h2⟩
        · rintro ⟨ds, hds, hne, hdig, hval⟩
          rcases hds with h | h
          · have hds2 : ds = c :: cs := h.symm
            subst hds2
            exact ⟨hdig, hval⟩
          · exact absurd ((List.cons.injEq ..).mp h).1 hc

/-- Success of the per-width wrapper in `from_type_and_value` is success of
the underlying integer parse. -/
theorem uint_branch_isOk_iff (mk : Nat → Token) (maxVal : Nat) (s : String) :
    (∃ t, (match rustParseUInt maxVal s with
           | Except.ok v => Except.ok (mk v)
           | Except.error e => Except.error e.msg) = Except.ok t) ↔
      isValidUIntText maxVal s := by
  rw [← rustParseUInt_isOk_iff]
  cases hr : rustParseUInt maxVal s <;> simp [hr]

/-- C4: `Token::from_type_and_value` parses according to the declared type —
`Unit` always succeeds ignoring the text; `Bool` succeeds exactly on the
case-sensitive texts "true" and "false"; each unsigned width succeeds
exactly when the text is a decimal numeral (with optional leading plus, as
the underlying parser accepts) whose value fits the width. -/
theorem C4_type_directed_parsing (s : String) :
    Token.from_type_and_value Ty.Unit s = Except.ok Token.Unit ∧
    ((∃ t, Token.from_type_and_value Ty.Bool s = Except.ok t) ↔
      (s = "true" ∨ s = "false")) ∧
    ((∃ t, Token.from_type_and_value Ty.U8 s = Except.ok t) ↔
      isValidUIntText 255 s) ∧
    ((∃ t, Token.from_type_and_value Ty.U16 s = Except.ok t) ↔
      isValidUIntText 65535 s) ∧
    ((∃ t, Token.from_type_and_value Ty.U32 s = Except.ok t) ↔
      isValidUIntText 4294967295 s) ∧
    ((∃ t, Token.from_type_and_value Ty.U64 s = Except.ok t) ↔
      isValidUIntText 18446744073709551615 s) := by
  refine ⟨rfl, ?_, ?_, ?_, ?_, ?_⟩
  · show (∃ t, (match rustParseBool s with
        | Except.ok bool_val => Except.ok (Token.Bool bool_val)
        | Except.error e => Except.error e) = Except.ok t) ↔ _
    unfold rustParseBool
    by_cases h1 : s = "true"
    · simp [h1]
    · by_cases h2 : s = "false" <;> simp [h1, h2]
  · exact uint_branch_isOk_iff Token.U8 255 s
  · exact uint_branch_isOk_iff Token.U16 65535 s
  · exact uint_branch_isOk_iff Token.U32 4294967295 s
  · exact uint_branch_isOk_iff Token.U64 18446744073709551615 s

/-- Parsing a plus-prefixed digit string goes through the same digit loop
as the bare digit string. -/
theorem rustParseUInt_plusDigits (maxVal : Nat) (s : String)
    (h : s.data ≠ []) (hdig : ∀ c ∈ s.data, c.isDigit) :
    rustParseUInt maxVal ("+" ++ s) = rustParseUInt maxVal s := by
  have hdata : ("+" ++ s).data = '+' :: s.data := by
    rw [String.data_append]
    rfl
  cases hd : s.data with
  | nil => exact absurd hd h
  | cons c cs =>
      have hc : c.isDigit := hdig c (by rw [hd]; exact List.mem_cons_self c cs)
      have hcp : ¬(c = '+') := by
        intro e
        rw [e] at hc
        simp [Char.isDigit] at hc
      rw [rustParseUInt_plus_cons maxVal ("+" ++ s) c cs (by rw [hdata, hd]),
        rustParseUInt_cons maxVal s c cs hd hcp]

/-- A nonempty all-digit string whose value fits parses to its decimal
value. -/
theorem rustParseUInt_ok_of_digits (maxVal : Nat) (s : String)
    (h : s.data ≠ []) (hdig : ∀ c ∈ s.data, c.isDigit)
    (hval : decimalValue s.data ≤ maxVal) :
    rustParseUInt maxVal s = Except.ok (decimalValue s.data) := by
  cases hd : s.data with
  | nil => exact absurd hd h
  | cons c cs =>
      have hc : c.isDigit := hdig c (by rw [hd]; exact List.mem_cons_self c cs)
      have hcp : ¬(c = '+') := by
        intro e
        rw [e] at hc
        simp [Char.isDigit] at hc
      rw [hd] at hdig hval
      rw [rustParseUInt_cons maxVal s c cs hd hcp]
      exact parseDigitsLoop_ok maxVal (c :: cs) 0 hdig hval

/-- C10: for each of U8/U16/U32/U64 and every in-range decimal numeral
text, `from_type_and_value` on the text with a leading plus sign yields
the same result as on the bare text, and both succeed with the numeral's
value — the underlying integer parser accepts an optional leading plus. -/
theorem C10_plus_prefixed_numerals (s : String) (h : s.data ≠ [])
    (hdig : ∀ c ∈ s.data, c.isDigit) :
    (decimalValue s.data ≤ 255 →
      Token.from_type_and_value Ty.U8 ("+" ++ s) = Token.from_type_and_value Ty.U8 s ∧
      Token.from_type_and_value Ty.U8 s = Except.ok (Token.U8 (decimalValue s.data))) ∧
    (decimalValue s.data ≤ 65535 →
      Token.from_type_and_value Ty.U16 ("+" ++ s) = Token.from_type_and_value Ty.U16 s ∧
      Token.from_type_and_value Ty.U16 s = Except.ok (Token.U16 (decimalValue s.data))) ∧
    (decimalValue s.data ≤ 4294967295 →
      Token.from_type_and_value Ty.U32 ("+" ++ s) = Token.from_type_and_value Ty.U32 s ∧
      Token.from_type_and_value Ty.U32 s = Except.ok (Token.U32 (decimalValue s.data))) ∧
    (decimalValue s.data ≤ 18446744073709551615 →
      Token.from_type_and_value Ty.U64 ("+" ++ s) = Token.from_type_and_value Ty.U64 s ∧
      Token.from_type_and_value Ty.U64 s = Except.ok (Token.U64 (decimalValue s.data))) := by
  have key : ∀ (mk : Nat → Token) (maxVal : Nat),
      decimalValue s.data ≤ maxVal →
      ((match rustParseUInt maxVal ("+" ++ s) with
        | Except.ok v => Except.ok (mk v)
        | Except.error e => Except.error e.msg) =
        (match rustParseUInt maxVal s with
         | Except.ok v => Except.ok (mk v)
         | Except.error e => Except.error e.msg) ∧
       (match rustParseUInt maxVal s with
        | Except.ok v => Except.ok (mk v)
        | Except.error e => Except.error e.msg) =
         Except.ok (mk (decimalValue s.data))) := by
    intro mk maxVal hval
    rw [rustParseUInt_plusDigits maxVal s h hdig,
      rustParseUInt_ok_of_digits maxVal s h hdig hval]
    exact ⟨rfl, rfl⟩
  exact ⟨key Token.U8 255, key Token.U16 65535, key Token.U32 4294967295,
    key Token.U64 18446744073709551615⟩

/-- C10 witness: "+7" parses as a `u8` exactly like "7". -/
theorem C10_plus_prefixed_numerals_witness :
    Token.from_type_and_value Ty.U8 "+7" = Token.from_type_and_value Ty.U8 "7" ∧
    Token.from_type_and_value Ty.U8 "7" = Except.ok (Token.U8 7) := by
  have h := (C10_plus_prefixed_numerals "7" (by decide) (by decide)).1 (by decide)
  exact h

/-- C3: encoding determinism and byte layout — the `[U8, Bool]` handler on
values ["2", "true"] produces exactly the 16 bytes of the claim once the
deferred buffer is resolved at offset 0; every scalar token encodes to
exactly 8 bytes; `Unit` contributes zero bytes; tokens are concatenated in
order with no padding; and each 8-byte word is the big-endian,
right-justified rendering of the value. -/
theorem C3_fixed_width_encoding :
    (ScriptCallHandler.encode_arguments (ScriptCallHandler.mk [Ty.U8, Ty.Bool])
        ["2", "true"] =
      Except.ok (UnresolvedBytes.mk
        [0, 0, 0, 0, 0, 0, 0, 2, 0, 0, 0, 0, 0, 0, 0, 1])) ∧
    ((UnresolvedBytes.mk [0, 0, 0, 0, 0, 0, 0, 2, 0, 0, 0, 0, 0, 0, 0, 1]).resolve 0 =
      [0, 0, 0, 0, 0, 0, 0, 2, 0, 0, 0, 0, 0, 0, 0, 1]) ∧
    (∀ n : Nat, (encodeToken (Token.U8 n)).length = 8 ∧
      (encodeToken (Token.U16 n)).length = 8 ∧
      (encodeToken (Token.U32 n)).length = 8 ∧
      (encodeToken (Token.U64 n)).length = 8) ∧
    (∀ b : Bool, (encodeToken (Token.Bool b)).length = 8) ∧
    encodeToken Token.Unit = [] ∧
    (∀ (tokens : List Token) (offset : Nat),
      (ABIEncoder.encode tokens).resolve offset = (tokens.map encodeToken).flatten) ∧
    (∀ n : Nat, n < 2 ^ 64 → Nat.ofDigits 256 (beBytes8 n).reverse = n) := by
  refine ⟨rfl, rfl, ?_, ?_, rfl, fun tokens offset => rfl, ?_⟩
  · intro n
    refine ⟨?_, ?_, ?_, ?_⟩ <;> simp [encodeToken, beBytes8]
  · intro b
    simp [encodeToken, beBytes8]
  · intro n hn
    have h : (beBytes8 n).reverse =
        [n % 256, n / 2 ^ 8 % 256, n / 2 ^ 16 % 256, n / 2 ^ 24 % 256,
         n / 2 ^ 32 % 256, n / 2 ^ 40 % 256, n / 2 ^ 48 % 256, n / 2 ^ 56 % 256] := by
      rfl
    rw [h]
    simp only [Nat.ofDigits_cons, Nat.ofDigits_nil]
    omega

/-- C3 witness: the big-endian word conjunct instantiated at 513. -/
theorem C3_fixed_width_encoding_witness :
    Nat.ofDigits 256 (beBytes8 513).reverse = 513 :=
  C3_fixed_width_encoding.2.2.2.2.2.2 513 (by decide)

/-- C4 witness: the `Unit` conjunct instantiated at a concrete text. -/
theorem C4_type_directed_parsing_witness :
    Token.from_type_and_value Ty.Unit "anything" = Except.ok Token.Unit :=
  (C4_type_directed_parsing "anything").1

/-- C9: a parsed ABI document with no function named "main" (in particular
one with an empty functions array) never yields a call handler: the
source's `.expect` panic is the modeled failure outcome. -/
theorem C9_missing_entry_point (abi : FullProgramABI)
    (h : ∀ f ∈ abi.functions, f.name ≠ "main") :
    ScriptCallHandler.from_full_abi abi =
      Except.error "every valid script needs to have a main function" := by
  unfold ScriptCallHandler.from_full_abi
  have hfind : abi.functions.find? (fun f => f.name == MAIN_KEYWORD) = none := by
    apply List.find?_eq_none.mpr
    intro f hf
    simp [MAIN_KEYWORD, h f hf]
  rw [hfind]

/-- C9 witness: the empty-functions document fails with the panic message. -/
theorem C9_missing_entry_point_witness :
    ScriptCallHandler.from_full_abi (FullProgramABI.mk []) =
      Except.error "every valid script needs to have a main function" := by
  rw [C9_missing_entry_point (FullProgramABI.mk [])
    (by intro f hf; exact absurd hf (List.not_mem_nil f))]

/-- Models num_bigint `BigUint::to_bytes_le`: the minimal little-endian
byte rendering of the magnitude, except that zero renders as the single
byte 0. -/
def bigUintToBytesLE (n : Nat) : List Nat :=
  if n = 0 then [0] else Nat.digits 256 n

/-- Models num_bigint `BigUint::from_bytes_le`: little-endian base-256
evaluation. -/
def bigUintFromBytesLE (bs : List Nat) : Nat :=
  Nat.ofDigits 256 bs

/-- The `U256` struct of `literal.rs`: a 256-bit value backed by an
arbitrary-precision magnitude; equality is on the numeric value, which is
what the backing `BigUint` stores. -/
structure U256 where
  value : Nat
deriving DecidableEq

/-- Embedding of `U256::min`. -/
def U256.min : U256 :=
  U256.mk (bigUintFromBytesLE [0])

/-- Embedding of `U256::max`. -/
def U256.max : U256 :=
  U256.mk (bigUintFromBytesLE (List.replicate 32 255))

/-- Embedding of `impl TryFrom<BigUint> for U256`: render the magnitude as
little-endian bytes, strip most-significant (trailing) zero bytes — the
source's `rposition`-and-truncate under `if let Some(&0) = bytes.last()` —
and accept when at most 32 bytes remain, else fail with `PosOverflow`. -/
def U256.tryFromBigUint (value : Nat) : Except IntErrorKind U256 :=
  let bytes := bigUintToBytesLE value
  let bytes :=
    if bytes.getLast? = some 0 then
      (bytes.reverse.dropWhile (fun d => d == 0)).reverse
    else bytes
  if bytes.length ≤ 32 then
    Except.ok (U256.mk (bigUintFromBytesLE bytes))
  else Except.error IntErrorKind.PosOverflow

theorem digits256_length_le_32 (v : Nat) (h0 : v ≠ 0) (hv : v < 2 ^ 256) :
    (Nat.digits 256 v).length ≤ 32 := by
  by_contra hl
  push_neg at hl
  have h1 : (256 : Nat) ^ (Nat.digits 256 v).length ≤ 256 * v :=
    Nat.base_pow_length_digits_le 256 v (by norm_num) h0
  have h2 : (256 : Nat) ^ 33 ≤ 256 ^ (Nat.digits 256 v).length :=
    Nat.pow_le_pow_right (by norm_num) hl
  have h3 : (256 : Nat) * 256 ^ 32 ≤ 256 * v := by
    calc (256 : Nat) * 256 ^ 32 = 256 ^ 33 := by ring
    _ ≤ 256 ^ (Nat.digits 256 v).length := h2
    _ ≤ 256 * v := h1
  have h4 : (256 : Nat) ^ 32 ≤ v := Nat.le_of_mul_le_mul_left h3 (by norm_num)
  have h5 : (2 : Nat) ^ 256 = 256 ^ 32 := by norm_num
  omega

theorem digits256_length_gt_32 (v : Nat) (hv : 2 ^ 256 ≤ v) :
    ¬((Nat.digits 256 v).length ≤ 32) := by
  intro hl
  have h1 : v < 256 ^ (Nat.digits 256 v).length :=
    Nat.lt_base_pow_length_digits (by norm_num)
  have h2 : (256 : Nat) ^ (Nat.digits 256 v).length ≤ 256 ^ 32 :=
    Nat.pow_le_pow_right (by norm_num) hl
  have h5 : (2 : Nat) ^ 256 = 256 ^ 32 := by norm_num
  omega

theorem tryFromBigUint_strip_reduce (v : Nat) (h0 : v ≠ 0) :
    U256.tryFromBigUint v =
      (if (Nat.digits 256 v).length ≤ 32 then
        Except.ok (U256.mk (bigUintFromBytesLE (Nat.digits 256 v)))
      else Except.error IntErrorKind.PosOverflow) := by
  unfold U256.tryFromBigUint bigUintToBytesLE
  have hne : Nat.digits 256 v ≠ [] := Nat.digits_ne_nil_iff_ne_zero.mpr h0
  have hlast : (Nat.digits 256 v).getLast hne ≠ 0 :=
    Nat.getLast_digit_ne_zero 256 h0
  have hlast2 : (Nat.digits 256 v).getLast? =
      some ((Nat.digits 256 v).getLast hne) :=
    List.getLast?_eq_getLast _ hne
  have hcond : ¬((Nat.digits 256 v).getLast? = some 0) := by
    rw [hlast2]
    simp [hlast]
  simp only [if_neg h0, if_neg hcond]

/-- C2: `U256::try_from` on a magnitude `v` succeeds with the value `v`
exactly when `v` fits in 32 bytes, failing with `PosOverflow` otherwise;
and a byte string padded with trailing zero bytes constructs the same
result as the minimal byte string, since both denote the same magnitude. -/
theorem C2_u256_normalization :
    (∀ v : Nat,
      (v < 2 ^ 256 → U256.tryFromBigUint v = Except.ok (U256.mk v)) ∧
      (2 ^ 256 ≤ v →
        U256.tryFromBigUint v = Except.error IntErrorKind.PosOverflow)) ∧
    (∀ (bs : List Nat) (k : Nat),
      U256.tryFromBigUint (bigUintFromBytesLE (bs ++ List.replicate k 0)) =
        U256.tryFromBigUint (bigUintFromBytesLE bs)) := by
  have hrep : ∀ k : Nat, Nat.ofDigits 256 (List.replicate k 0) = 0 := by
    intro k
    induction k with
    | zero => rfl
    | succ m ih => simp [List.replicate, Nat.ofDigits_cons, ih]
  constructor
  · intro v
    constructor
    · intro hv
      by_cases h0 : v = 0
      · subst h0
        rfl
      · rw [tryFromBigUint_strip_reduce v h0,
          if_pos (digits256_length_le_32 v h0 hv)]
        unfold bigUintFromBytesLE
        rw [Nat.ofDigits_digits]
    · intro hv
      have h0 : v ≠ 0 := by
        intro h
        subst h
        exact absurd hv (Nat.not_le.mpr (by positivity))
      rw [tryFromBigUint_strip_reduce v h0,
        if_neg (digits256_length_gt_32 v hv)]
  · intro bs k
    have : bigUintFromBytesLE (bs ++ List.replicate k 0) = bigUintFromBytesLE bs := by
      unfold bigUintFromBytesLE
      rw [Nat.ofDigits_append, hrep k, Nat.mul_zero, Nat.add_zero]
    rw [this]

/-- C2 witness: the value 5 round-trips, and the first value above the
256-bit range overflows. -/
theorem C2_u256_normalization_witness :
    U256.tryFromBigUint 5 = Except.ok (U256.mk 5) ∧
    U256.tryFromBigUint (2 ^ 256) = Except.error IntErrorKind.PosOverflow ∧
    U256.tryFromBigUint (bigUintFromBytesLE ([5] ++ List.replicate 3 0)) =
      U256.tryFromBigUint (bigUintFromBytesLE [5]) := by
  refine ⟨(C2_u256_normalization.1 5).1 (by norm_num),
    (C2_u256_normalization.1 (2 ^ 256)).2 (le_refl _),
    C2_u256_normalization.2 [5] 3⟩

/-- Models `sway_types::span::Span` reduced to what `literal.rs` reads from
it: the referenced source text (`as_str`). -/
structure Span where
  text : Str
deriving DecidableEq

/-- The `Literal` enum of `literal.rs`. Fixed-width integer payloads are
the machine values as naturals; `B256` carries its 32 bytes. -/
inductive Literal
  | U8 (x : Nat)
  | U16 (x : Nat)
  | U32 (x : Nat)
  | U64 (x : Nat)
  | U128 (x : Nat)
  | U256 (x : U256)
  | String (s : Span)
  | Numeric (x : Nat)
  | Boolean (x : Bool)
  | B256 (x : List Nat)
deriving DecidableEq

/-- Embedding of `impl PartialEq for Literal`: variant-and-payload
equality, with `String` compared by referenced text and `U256` by numeric
value; any cross-variant pair is unequal. -/
def Literal.beq : Literal → Literal → Bool
  | Literal.U8 l0, Literal.U8 r0 => l0 == r0
  | Literal.U16 l0, Literal.U16 r0 => l0 == r0
  | Literal.U32 l0, Literal.U32 r0 => l0 == r0
  | Literal.U64 l0, Literal.U64 r0 => l0 == r0
  | Literal.U128 l0, Literal.U128 r0 => l0 == r0
  | Literal.U256 l0, Literal.U256 r0 => l0.value == r0.value
  | Literal.String l0, Literal.String r0 => l0.text == r0.text
  | Literal.Numeric l0, Literal.Numeric r0 => l0 == r0
  | Literal.Boolean l0, Literal.Boolean r0 => l0 == r0
  | Literal.B256 l0, Literal.B256 r0 => l0 == r0
  | _, _ => false

/-- Little-endian fixed-width byte rendering, for the hash streams of the
fixed-width std `Hash` impls on a little-endian platform. -/
def leBytes (k n : Nat) : List Nat :=
  (List.range k).map (fun i => n / 256 ^ i % 256)

/-- Models the byte stream `impl Hash for Literal` writes to the hasher:
each implemented variant first writes its distinct discriminant byte
(1..8), then its payload bytes (std `Hash` of the payload; `String` hashes
the referenced text's UTF-8 bytes plus the 0xff terminator, `Numeric`
hashes the length-prefixed 64-bit limbs of the `BigUint`, `B256` hashes
the length-prefixed array elements). `U128` and `U256` are `todo!()` —
they panic before writing anything — modeled as `none`. -/
def Literal.hashStream : Literal → Option (List Nat)
  | Literal.U8 x => some (1 :: [x])
  | Literal.U16 x => some (2 :: leBytes 2 x)
  | Literal.U32 x => some (3 :: leBytes 4 x)
  | Literal.U64 x => some (4 :: leBytes 8 x)
  | Literal.U128 _ => none
  | Literal.U256 _ => none
  | Literal.Numeric x => some (5 :: (leBytes 8 (Nat.digits (2 ^ 64) x).length ++
      (Nat.digits (2 ^ 64) x).flatMap (leBytes 8)))
  | Literal.String sp => some (6 :: (sp.text.toUTF8.toList.map UInt8.toNat ++ [255]))
  | Literal.Boolean x => some (7 :: [if x then 1 else 0])
  | Literal.B256 x => some (8 :: (leBytes 8 x.length ++ x))

/-- Variant index of a `Literal`, for stating cross-variant properties. -/
def Literal.variantIdx : Literal → Nat
  | Literal.U8 _ => 0
  | Literal.U16 _ => 1
  | Literal.U32 _ => 2
  | Literal.U64 _ => 3
  | Literal.U128 _ => 4
  | Literal.U256 _ => 5
  | Literal.String _ => 6
  | Literal.Numeric _ => 7
  | Literal.Boolean _ => 8
  | Literal.B256 _ => 9

/-- Embedding of `impl fmt::Display for Literal`: the rendered text, or
`none` where the source is `todo!()` (`U128`, `U256`), which panics. -/
def Literal.display : Literal → Option Str
  | Literal.U8 content => some (toString content)
  | Literal.U16 content => some (toString content)
  | Literal.U32 content => some (toString content)
  | Literal.U64 content => some (toString content)
  | Literal.U128 _ => none
  | Literal.U256 _ => none
  | Literal.Numeric content => some (toString content)
  | Literal.String content => some content.text
  | Literal.Boolean content => some (if content then "true" else "false")
  | Literal.B256 content => some (String.intercalate ", " (content.map toString))

/-- C7 counterexample: displaying the `U128` literal 5 hits the source's
`todo!()` panic (modeled `none`) instead of rendering the decimal text
"5", so not every numeric variant renders as its decimal text. -/
theorem C7_display_counterexample :
    Literal.display (Literal.U128 5) = none ∧
    Literal.display (Literal.U128 5) ≠ some "5" := by
  exact ⟨rfl, by decide⟩

/-- C7 amended: `Display` renders `U8`, `U16`, `U32`, `U64` and `Numeric`
as decimal text, `String` as its referenced source text, `Boolean` as
"true"/"false", and `B256` as the comma-joined list of its byte values in
decimal; `U128` and `U256` display is unimplemented (`todo!()` panics,
modeled `none`). -/
theorem C7_display_amended :
    (∀ x : Nat, Literal.display (Literal.U8 x) = some (Nat.repr x)) ∧
    (∀ x : Nat, Literal.display (Literal.U16 x) = some (Nat.repr x)) ∧
    (∀ x : Nat, Literal.display (Literal.U32 x) = some (Nat.repr x)) ∧
    (∀ x : Nat, Literal.display (Literal.U64 x) = some (Nat.repr x)) ∧
    (∀ x : Nat, Literal.display (Literal.Numeric x) = some (Nat.repr x)) ∧
    (∀ x : Nat, Literal.display (Literal.U128 x) = none) ∧
    (∀ u : U256, Literal.display (Literal.U256 u) = none) ∧
    (∀ sp : Span, Literal.display (Literal.String sp) = some sp.text) ∧
    (Literal.display (Literal.Boolean true) = some "true" ∧
      Literal.display (Literal.Boolean false) = some "false") ∧
    (∀ bytes : List Nat, Literal.display (Literal.B256 bytes) =
      some (String.intercalate ", " (bytes.map Nat.repr))) := by
  exact ⟨fun _ => rfl, fun _ => rfl, fun _ => rfl, fun _ => rfl, fun _ => rfl,
    fun _ => rfl, fun _ => rfl, fun _ => rfl, ⟨rfl, rfl⟩, fun _ => rfl⟩

/-- C8: two literals of different variants never compare equal, and — for
the variants whose hashing is implemented — their hash streams differ,
because each variant writes a distinct discriminant byte first. -/
theorem C8_hash_equality_separation (l1 l2 : Literal)
    (h : l1.variantIdx ≠ l2.variantIdx) :
    l1.beq l2 = false ∧
    (l1.hashStream.isSome = true → l2.hashStream.isSome = true →
      l1.hashStream ≠ l2.hashStream) := by
  cases l1 <;> cases l2 <;>
    simp_all [Literal.variantIdx, Literal.beq, Literal.hashStream]

/-- C8 witness: the `U8` literal with payload byte 5 and the `Boolean`
literal `true` neither compare equal nor hash to the same stream. -/
theorem C8_hash_equality_separation_witness :
    (Literal.U8 5).beq (Literal.Boolean true) = false ∧
    (Literal.U8 5).hashStream ≠ (Literal.Boolean true).hashStream := by
  have h := C8_hash_equality_separation (Literal.U8 5) (Literal.Boolean true)
    (by decide)
  exact ⟨h.1, h.2 (by decide) (by decide)⟩

end Sway
